import Mathlib

/-!
Verification of the workTimeReporter repository (`report.py`).

The program computes, for a week number, the 7 dates of that ISO week
(via Python's `datetime.date.fromisocalendar`), filters them by the
configured work-day numbers, splits the result at a month boundary,
and renders a textual report.

Dates are embedded as proleptic-Gregorian ordinals (`Nat`, with
January 1 of year 1 as ordinal 1), exactly as CPython's `datetime`
module represents them internally.  The conversion functions below are
translated from CPython's `datetime.py` (`_ymd2ord`, `_ord2ymd`,
`_isoweek1monday`, `_isoweek_to_gregorian`, `date.isocalendar`), which
is the library code `report.py` delegates all date arithmetic to.
-/

set_option autoImplicit false

/-- CPython `_is_leap`: leap year predicate of the proleptic Gregorian calendar. -/
def isLeap (y : Nat) : Bool :=
  y % 4 == 0 && (y % 100 != 0 || y % 400 == 0)

/-- CPython `_DAYS_IN_MONTH` (index 0 is a sentinel; months are 1-based). -/
def DAYS_IN_MONTH : List Nat := [0, 31, 28, 31, 30, 31, 30, 31, 31, 30, 31, 30, 31]

/-- CPython `_DAYS_BEFORE_MONTH` (index 0 is a sentinel; months are 1-based). -/
def DAYS_BEFORE_MONTH : List Nat := [0, 0, 31, 59, 90, 120, 151, 181, 212, 243, 273, 304, 334]

/-- Days in month `m`, given the leap flag `L` of the year. -/
def daysInMonthB (L : Bool) (m : Nat) : Nat :=
  DAYS_IN_MONTH.getD m 0 + (if m = 2 ∧ L = true then 1 else 0)

/-- Days in the year before month `m`, given the leap flag `L` of the year. -/
def daysBeforeMonthB (L : Bool) (m : Nat) : Nat :=
  DAYS_BEFORE_MONTH.getD m 0 + (if 2 < m ∧ L = true then 1 else 0)

/-- CPython `_days_in_month`. -/
def daysInMonth (y m : Nat) : Nat := daysInMonthB (isLeap y) m

/-- CPython `_days_before_month`. -/
def daysBeforeMonth (y m : Nat) : Nat := daysBeforeMonthB (isLeap y) m

/-- CPython `_days_before_year`: number of days before January 1 of year `y`. -/
def daysBeforeYear (y : Nat) : Nat :=
  (y - 1) * 365 + (y - 1) / 4 - (y - 1) / 100 + (y - 1) / 400

/-- Number of days in year `y`. -/
def daysInYear (y : Nat) : Nat := if isLeap y then 366 else 365

/-- CPython `_ymd2ord`: ordinal of the date `(y, m, d)`, counting from
`(1, 1, 1)` as ordinal 1. -/
def ymd2ord (y m d : Nat) : Nat :=
  daysBeforeYear y + daysBeforeMonth y m + d

/-- Month/day extraction step of CPython `_ord2ymd`: given the leap flag and
the zero-based day index `n` within the year, recover `(month, day)` via the
estimate `(n + 50) >> 5` and its correction. -/
def monthPart (leap : Bool) (n : Nat) : Nat × Nat :=
  let m0 := (n + 50) / 32
  let preceding := DAYS_BEFORE_MONTH.getD m0 0 + (if 2 < m0 ∧ leap = true then 1 else 0)
  if n < preceding then
    (m0 - 1,
      n - (preceding - (DAYS_IN_MONTH.getD (m0 - 1) 0 + (if m0 - 1 = 2 ∧ leap = true then 1 else 0))) + 1)
  else
    (m0, n - preceding + 1)

/-- CPython `_ord2ymd`: inverse of `ymd2ord`, via the 400/100/4/1-year
division cascade. -/
def ord2ymd (N : Nat) : Nat × Nat × Nat :=
  let n0 := N - 1
  let n400 := n0 / 146097
  let r1 := n0 % 146097
  let n100 := r1 / 36524
  let r2 := r1 % 36524
  let n4 := r2 / 1461
  let r3 := r2 % 1461
  let n1 := r3 / 365
  let n := r3 % 365
  let year := n400 * 400 + 1 + n100 * 100 + n4 * 4 + n1
  if n1 = 4 ∨ n100 = 4 then (year - 1, 12, 31)
  else
    let leap := n1 == 3 && (n4 != 24 || n100 == 3)
    let mp := monthPart leap n
    (year, mp.1, mp.2)

/-- Calendar year of an ordinal. -/
def yearOf (n : Nat) : Nat := (ord2ymd n).1

/-- Calendar month (1..12) of an ordinal. -/
def monthOf (n : Nat) : Nat := (ord2ymd n).2.1

/-- Day of month (1..31) of an ordinal. -/
def domOf (n : Nat) : Nat := (ord2ymd n).2.2

/-- A valid proleptic-Gregorian date (year, month, day). -/
def ValidYMD (y m d : Nat) : Prop :=
  1 ≤ y ∧ 1 ≤ m ∧ m ≤ 12 ∧ 1 ≤ d ∧ d ≤ daysInMonth y m

/-- Successor date of a (year, month, day) triple. -/
def nextDay : Nat × Nat × Nat → Nat × Nat × Nat
  | (y, m, d) =>
    if d < daysInMonth y m then (y, m, d + 1)
    else if m < 12 then (y, m + 1, 1)
    else (y + 1, 1, 1)


/-- CPython `_isoweek1monday`: ordinal of the Monday starting ISO week 1 of
`year` (week 1 contains the year's first Thursday). -/
def isoweek1monday (year : Nat) : Nat :=
  let firstday := ymd2ord year 1 1
  let firstweekday := (firstday + 6) % 7
  let week1monday := firstday - firstweekday
  if 3 < firstweekday then week1monday + 7 else week1monday

/-- Week-53 test of CPython `_isoweek_to_gregorian`: an ISO year has 53 weeks
iff it starts on a Thursday, or is a leap year starting on a Wednesday. -/
def longYear (year : Nat) : Bool :=
  ymd2ord year 1 1 % 7 == 4 || (ymd2ord year 1 1 % 7 == 3 && isLeap year)

/-- Ordinal of day `day` (1..7) of ISO week `week` of `year`. -/
def isoOrdinal (year week day : Nat) : Nat :=
  isoweek1monday year + 7 * (week - 1) + (day - 1)

/-- CPython `date.fromisocalendar`: validates the year, the week (1..52, or 53
for a long year), the day (1..7), converts, and lets the `date` constructor
validate that the resulting year is still in range; any violation raises
`ValueError`, modelled as `none`. -/
def fromisocalendar (year : Nat) (week : Int) (day : Nat) : Option Nat :=
  if year < 1 ∨ 9999 < year then none
  else if ¬(0 < week ∧ (week < 53 ∨ (week = 53 ∧ longYear year = true))) then none
  else if ¬(0 < day ∧ day < 8) then none
  else
    let ord := isoOrdinal year week.toNat day
    if 9999 < (ord2ymd ord).1 then none else some ord

/-- CPython `date.isocalendar` for a date ordinal: `(iso year, week, weekday)`. -/
def isocalendarOf (n : Nat) : Nat × Nat × Nat :=
  let year := (ord2ymd n).1
  let w1m : Int := isoweek1monday year
  let week : Int := ((n : Int) - w1m) / 7
  let day : Int := ((n : Int) - w1m) % 7
  if week < 0 then
    let year2 := year - 1
    let w1m2 : Int := isoweek1monday year2
    let week2 := ((n : Int) - w1m2) / 7
    let day2 := ((n : Int) - w1m2) % 7
    (year2, (week2 + 1).toNat, (day2 + 1).toNat)
  else if 52 ≤ week ∧ (isoweek1monday (year + 1) : Int) ≤ (n : Int) then
    (year + 1, 1, (day + 1).toNat)
  else
    (year, (week + 1).toNat, (day + 1).toNat)

/-- Python exception kinds raised by `get_list_of_days`. -/
inductive PyErr
  | valueError
  | indexError
deriving DecidableEq

/-- The configuration object built by `Configuration.__init__`: the JSON
fields, plus the resolved workalendar country calendar modelled by its
`is_holiday` predicate on date ordinals. -/
structure Configuration where
  report_language : String
  country : String
  continent : String
  start_hour : String
  end_hour : String
  work_days : List Int
  vacation_spelling : String
  holiday_spelling : String
  calendar : Nat → Bool

/-- `Configuration.is_holiday`: delegates to the workalendar calendar. -/
def Configuration.is_holiday (cfg : Configuration) (day : Nat) : Bool :=
  cfg.calendar day

/-- `Configuration.is_workday`: the ISO weekday number of the date is a member
of the configured `work_days` list. -/
def Configuration.is_workday (cfg : Configuration) (day : Nat) : Bool :=
  cfg.work_days.contains ((isocalendarOf day).2.2 : Int)

/-- `Configuration.is_vacation`: always `False` in the source. -/
def Configuration.is_vacation (_cfg : Configuration) (_day : Nat) : Bool :=
  false

/-- `DAYS_IN_A_WEEK` from `report.py`. -/
def DAYS_IN_A_WEEK : Nat := 7

/-- `get_day_from_week(week, day)`: `date.fromisocalendar(get_current_year(), week, day)`.
The current ISO year (`get_current_year()`, from today's date) is a parameter
of the embedding. -/
def get_day_from_week (year : Nat) (week : Int) (day : Nat) : Option Nat :=
  fromisocalendar year week day

/-- Sequencing of the list comprehension
`[get_day_from_week(week, day) for day in range(1, DAYS_IN_A_WEEK + 1)]`:
an exception in any element aborts the whole list. -/
def optionList (f : Nat → Option Nat) : List Nat → Option (List Nat)
  | [] => some []
  | d :: ds =>
    match f d, optionList f ds with
    | some x, some xs => some (x :: xs)
    | _, _ => none

/-- The `week_days` list computed by `get_list_of_days`. -/
def weekDaysList (year : Nat) (week : Int) : Option (List Nat) :=
  optionList (fun day => get_day_from_week year week day) (List.range' 1 DAYS_IN_A_WEEK)

/-- `get_list_of_days(week)`: filter the week's dates by `is_workday` and, if
the first and last remaining dates are in different months, split into the two
month groups.  Indexing `work_days[0]` of an empty filtered list raises
`IndexError`; a failed date conversion raises `ValueError`. -/
def get_list_of_days (cfg : Configuration) (year : Nat) (week : Int) :
    Except PyErr (List (List Nat)) :=
  match weekDaysList year week with
  | none => Except.error PyErr.valueError
  | some week_days =>
    match week_days.filter (fun day => cfg.is_workday day) with
    | [] => Except.error PyErr.indexError
    | first :: rest =>
      let lastDay := rest.getLastD first
      if monthOf first ≠ monthOf lastDay then
        Except.ok [(first :: rest).filter (fun day => monthOf day == monthOf first),
                   (first :: rest).filter (fun day => monthOf day == monthOf lastDay)]
      else
        Except.ok [first :: rest]

/-- C-locale `%a` weekday abbreviations, indexed by `date.weekday()` (Monday = 0). -/
def WEEKDAY_ABBREV : List String := ["Mon", "Tue", "Wed", "Thu", "Fri", "Sat", "Sun"]

/-- C-locale `%B` month names (index 0 is a sentinel; months are 1-based). -/
def MONTH_NAMES : List String :=
  ["", "January", "February", "March", "April", "May", "June", "July", "August",
   "September", "October", "November", "December"]

/-- Zero-padded two-digit rendering, as `%d` / `%m` in `strftime`. -/
def pad2 (k : Nat) : String :=
  if k < 10 then "0" ++ toString k else toString k

/-- `day.strftime("%a")` for a date ordinal: `date.weekday()` is `(ordinal + 6) % 7`
with Monday = 0. -/
def weekdayAbbrevOf (n : Nat) : String :=
  WEEKDAY_ABBREV.getD ((n + 6) % 7) ""

/-- `format_day(day)`: `"<%a>-<%d>:<%m>.: <description>"` with the description
chosen by the `is_holiday` / `is_vacation` / working-hours cascade. -/
def format_day (cfg : Configuration) (day : Nat) : String :=
  let date_str := pad2 (domOf day) ++ ":" ++ pad2 (monthOf day)
  let day_name := weekdayAbbrevOf day
  let description :=
    if cfg.is_holiday day then cfg.holiday_spelling
    else if cfg.is_vacation day then cfg.vacation_spelling
    else "Start: " ++ cfg.start_hour ++ "; End: " ++ cfg.end_hour
  day_name ++ "-" ++ date_str ++ ".: " ++ description

/-- The lines built for one group inside `get_reports`: the
`f"Working hours {sub_week[0]:%d}-{sub_week[-1]:%d} Of {sub_week[0]:%B}"`
title followed by `format_day` of each day. -/
def group_report (cfg : Configuration) (sub_week : List Nat) : List String :=
  ("Working hours " ++ pad2 (domOf (sub_week.headD 0)) ++ "-" ++
      pad2 (domOf (sub_week.getLastD 0)) ++ " Of " ++
      MONTH_NAMES.getD (monthOf (sub_week.headD 0)) "")
    :: sub_week.map (fun day => format_day cfg day)

/-- `get_reports(week)`: one titled sub-report per group of `get_list_of_days`. -/
def get_reports (cfg : Configuration) (year : Nat) (week : Int) :
    Except PyErr (List (List String)) :=
  match get_list_of_days cfg year week with
  | Except.error e => Except.error e
  | Except.ok days => Except.ok (days.map (fun sub_week => group_report cfg sub_week))

/-- The inner loop of `print_report`: `print(report)` for each line of a
sub-report; Python's `print` appends one newline to each. -/
def emitLines : List String → String
  | [] => ""
  | r :: rs => (r ++ "\n") ++ emitLines rs

/-- The outer loop of `print_report`: after each sub-report's lines,
`print("\n")` writes the string `"\n"` plus print's own newline — two newline
characters. -/
def emitGroups : List (List String) → String
  | [] => ""
  | sub :: subs => (emitLines sub ++ "\n\n") ++ emitGroups subs

/-- `print_report(week)`: the exact text written to standard output. -/
def print_report (cfg : Configuration) (year : Nat) (week : Int) :
    Except PyErr String :=
  match get_reports cfg year week with
  | Except.error e => Except.error e
  | Except.ok reports => Except.ok (emitGroups reports)

/-- The parsed JSON configuration dictionary: each required key is present or
absent (`data[key]` raises `KeyError` when absent). -/
structure ConfigDict where
  report_language : Option String
  country : Option String
  continent : Option String
  start_hour : Option String
  end_hour : Option String
  work_days : Option (List Int)
  vacation : Option String
  holiday : Option String

/-- Observable outcome of `Configuration.__init__`. -/
inductive InitOutcome
  /-- A diagnostic was printed and the process exited via `sys.exit(1)`. -/
  | exited (diagnostic : String)
  /-- An exception propagated uncaught out of `__init__`. -/
  | raised (exception : String)
  /-- A `KeyError` was caught and reported; execution continues with a
  partially populated object (collapsed here, no claim depends on it). -/
  | incomplete (diagnostic : String)
  /-- A fully populated `Configuration`. -/
  | ok (cfg : Configuration)

/-- `Configuration.__init__`, parameterised by the file system (`fileContents`
is `none` when opening `CONFIG_FILE_NAME` raises `FileNotFoundError`), by
`json.loads` (`none` models a `JSONDecodeError` on malformed contents), and by
the workalendar country resolution (`none` models an import failure, which
prints and exits).  Only `FileNotFoundError` is caught by the source:
`json.loads` runs outside the `try` block, so a `JSONDecodeError` propagates
uncaught. -/
def configInit (fileContents : Option String)
    (jsonLoads : String → Option ConfigDict)
    (importCountry : String → String → Option (Nat → Bool)) : InitOutcome :=
  match fileContents with
  | none => InitOutcome.exited "Failed to load configuration file"
  | some s =>
    match jsonLoads s with
    | none => InitOutcome.raised "JSONDecodeError"
    | some data =>
      match data.report_language, data.country, data.continent, data.start_hour,
          data.end_hour, data.work_days, data.vacation, data.holiday with
      | some rl, some co, some ct, some sh, some eh, some wd, some va, some ho =>
        match importCountry ct co with
        | none => InitOutcome.exited "Failed to import country"
        | some cal => InitOutcome.ok ⟨rl, co, ct, sh, eh, wd, va, ho, cal⟩
      | _, _, _, _, _, _, _, _ =>
        InitOutcome.incomplete "Failed to access configuration parameter"

/-- Does `configInit` end in the handled print-and-exit path? -/
def InitOutcome.isExited : InitOutcome → Bool
  | InitOutcome.exited _ => true
  | _ => false

/-- Spec 4.3 `format_day`, written from the specification's words
("<3-letter weekday abbrev>-<DD:MM>.: <description>" with the holiday label
first, else the vacation label, else "Start: <start_hour>; End: <end_hour>"),
for comparison with the source-derived `format_day`. -/
def format_day_spec (cfg : Configuration) (day : Nat) : String :=
  weekdayAbbrevOf day ++ "-" ++ pad2 (domOf day) ++ ":" ++ pad2 (monthOf day) ++ ".: " ++
    (if cfg.is_holiday day then cfg.holiday_spelling
     else if cfg.is_vacation day then cfg.vacation_spelling
     else "Start: " ++ cfg.start_hour ++ "; End: " ++ cfg.end_hour)

/-- Interleave a separator between the strings of a list. -/
def intercalateStr (sep : String) : List String → String
  | [] => ""
  | [a] => a
  | a :: b :: rest => a ++ sep ++ intercalateStr sep (b :: rest)

/-- Spec 4.4 rendering, written from the specification's words: the lines of
each sub-report in order, each line ended by a newline, a single blank line
separating consecutive groups and nothing else; for comparison with
`print_report`. -/
def render_spec (reports : List (List String)) : String :=
  intercalateStr "\n\n" (reports.map (fun sub => intercalateStr "\n" sub)) ++ "\n"

/-- The text `print_report` actually produces, per group: the group's lines
joined by single newlines, then three consecutive newline characters (the last
line's terminating newline plus the two newlines printed by `print("\n")`),
after every group including the last. -/
def render_actual : List (List String) → String
  | [] => ""
  | sub :: subs => (intercalateStr "\n" sub ++ "\n\n\n") ++ render_actual subs

/-- The default configuration written by `generate_config.py`, with a calendar
that marks no holidays. -/
def cfg0 : Configuration :=
  ⟨"English", "Poland", "Europe", "8:00", "17:00", [1, 2, 3, 4, 5], "Vacation", "Holiday",
    fun _ => false⟩

/-- A configuration whose calendar marks every day as a holiday. -/
def cfgH : Configuration :=
  ⟨"English", "Poland", "Europe", "8:00", "17:00", [1, 2, 3, 4, 5], "Vacation", "Holiday",
    fun _ => true⟩

/-- A configuration with an empty work-day list. -/
def cfgE : Configuration :=
  ⟨"English", "Poland", "Europe", "8:00", "17:00", [], "Vacation", "Holiday",
    fun _ => false⟩

/-- Replace only the `vacation` label of a configuration. -/
def setVacation (cfg : Configuration) (v : String) : Configuration :=
  ⟨cfg.report_language, cfg.country, cfg.continent, cfg.start_hour, cfg.end_hour,
    cfg.work_days, v, cfg.holiday_spelling, cfg.calendar⟩

theorem isLeap_iff (y : Nat) :
    isLeap y = true ↔ (y % 4 = 0 ∧ (y % 100 ≠ 0 ∨ y % 400 = 0)) := by
  simp [isLeap]

theorem daysInMonth_eq (y m : Nat) : daysInMonth y m = daysInMonthB (isLeap y) m := rfl

theorem monthPart_correct (L : Bool) : ∀ m, m < 13 → ∀ d, d < 32 →
    (1 ≤ m ∧ 1 ≤ d ∧ d ≤ daysInMonthB L m) →
    monthPart L (daysBeforeMonthB L m + d - 1) = (m, d) := by
  cases L <;> decide

theorem dayIdx_bound (L : Bool) : ∀ m, m < 13 → ∀ d, d < 32 →
    (1 ≤ m ∧ 1 ≤ d ∧ d ≤ daysInMonthB L m) →
    daysBeforeMonthB L m + d - 1 < (if L = true then 366 else 365) := by
  cases L <;> decide

theorem dayIdx_365 (L : Bool) : ∀ m, m < 13 → ∀ d, d < 32 →
    (1 ≤ m ∧ 1 ≤ d ∧ d ≤ daysInMonthB L m ∧ daysBeforeMonthB L m + d - 1 = 365) →
    m = 12 ∧ d = 31 := by
  cases L <;> decide

theorem daysInMonthB_le (L : Bool) : ∀ m, m < 13 → daysInMonthB L m ≤ 31 := by
  cases L <;> decide

theorem daysInMonthB_ge (L : Bool) : ∀ m, m < 13 → 1 ≤ m → 28 ≤ daysInMonthB L m := by
  cases L <;> decide

theorem daysBeforeMonthB_succ (L : Bool) : ∀ m, m < 12 → 1 ≤ m →
    daysBeforeMonthB L (m + 1) = daysBeforeMonthB L m + daysInMonthB L m := by
  cases L <;> decide

theorem daysBeforeMonthB_last (L : Bool) :
    daysBeforeMonthB L 12 + daysInMonthB L 12 = (if L = true then 366 else 365) := by
  cases L <;> decide

theorem daysBeforeMonthB_one (L : Bool) : daysBeforeMonthB L 1 = 0 := by
  cases L <;> rfl

set_option maxHeartbeats 4000000 in
theorem daysBeforeYear_succ (y : Nat) (hy : 1 ≤ y) :
    daysBeforeYear (y + 1) = daysBeforeYear y + daysInYear y := by
  have hL := isLeap_iff y
  simp only [daysInYear]
  cases h : isLeap y
  · rw [h] at hL
    simp only [Bool.false_eq_true, false_iff] at hL
    simp only [Bool.false_eq_true, if_false]
    simp only [daysBeforeYear, Nat.add_sub_cancel]
    omega
  · rw [h] at hL
    simp only [true_iff] at hL
    simp only [if_true]
    simp only [daysBeforeYear, Nat.add_sub_cancel]
    omega

theorem daysBeforeYear_mono {y1 y2 : Nat} (h : y1 ≤ y2) :
    daysBeforeYear y1 ≤ daysBeforeYear y2 := by
  induction h with
  | refl => exact Nat.le_refl _
  | @step n h ih =>
    refine Nat.le_trans ih ?_
    by_cases hn : 1 ≤ n
    · rw [daysBeforeYear_succ n hn]; omega
    · have : n = 0 := by omega
      subst this
      decide

theorem ymd2ord_nextDay (y m d : Nat) (hv : ValidYMD y m d) :
    ymd2ord (nextDay (y, m, d)).1 (nextDay (y, m, d)).2.1 (nextDay (y, m, d)).2.2
      = ymd2ord y m d + 1 ∧
    ValidYMD (nextDay (y, m, d)).1 (nextDay (y, m, d)).2.1 (nextDay (y, m, d)).2.2 := by
  obtain ⟨hy, hm1, hm2, hd1, hd2⟩ := hv
  by_cases hlt : d < daysInMonth y m
  · have hnd : nextDay (y, m, d) = (y, m, d + 1) := by
      simp [nextDay, hlt]
    rw [hnd]
    constructor
    · show ymd2ord y m (d + 1) = ymd2ord y m d + 1
      simp only [ymd2ord]; omega
    · show ValidYMD y m (d + 1)
      exact ⟨hy, hm1, hm2, by omega, by omega⟩
  · by_cases hm12 : m < 12
    · have hnd : nextDay (y, m, d) = (y, m + 1, 1) := by
        simp [nextDay, hlt, hm12]
      rw [hnd]
      have hsucc := daysBeforeMonthB_succ (isLeap y) m hm12 hm1
      constructor
      · show ymd2ord y (m + 1) 1 = ymd2ord y m d + 1
        simp only [daysInMonth] at hlt hd2
        simp only [ymd2ord, daysBeforeMonth]
        omega
      · show ValidYMD y (m + 1) 1
        have := daysInMonthB_ge (isLeap y) (m + 1) (by omega) (by omega)
        exact ⟨hy, by omega, by omega, by omega, by simp only [daysInMonth]; omega⟩
    · have hmeq : m = 12 := by omega
      subst hmeq
      have hnd : nextDay (y, 12, d) = (y + 1, 1, 1) := by
        simp [nextDay, hlt]
      rw [hnd]
      have h1 := daysBeforeMonthB_last (isLeap y)
      have h2 := daysBeforeYear_succ y hy
      have h3 := daysBeforeMonthB_one (isLeap (y + 1))
      constructor
      · show ymd2ord (y + 1) 1 1 = ymd2ord y 12 d + 1
        simp only [daysInMonth] at hlt hd2
        simp only [ymd2ord, daysBeforeMonth, daysInYear] at *
        cases hL : isLeap y <;> rw [hL] at h1 h2 hlt hd2 <;> simp at h1 h2 <;> omega
      · show ValidYMD (y + 1) 1 1
        have := daysInMonthB_ge (isLeap (y + 1)) 1 (by omega) (by omega)
        exact ⟨by omega, by omega, by omega, by omega, by simp only [daysInMonth]; omega⟩

theorem ymd2ord_surj : ∀ n, 1 ≤ n → ∃ y m d, ValidYMD y m d ∧ ymd2ord y m d = n := by
  intro n
  induction n with
  | zero => intro h; exact absurd h (by omega)
  | succ j ih =>
    intro _
    by_cases hj : 1 ≤ j
    · obtain ⟨y, m, d, hv, he⟩ := ih hj
      obtain ⟨hstep, hv'⟩ := ymd2ord_nextDay y m d hv
      refine ⟨(nextDay (y, m, d)).1, (nextDay (y, m, d)).2.1, (nextDay (y, m, d)).2.2, hv', ?_⟩
      omega
    · have hj0 : j = 0 := by omega
      subst hj0
      exact ⟨1, 1, 1, ⟨by omega, by omega, by omega, by omega, by decide⟩, by decide⟩

set_option maxHeartbeats 1600000 in
theorem ord2ymd_ymd2ord (y m d : Nat) (hv : ValidYMD y m d) :
    ord2ymd (ymd2ord y m d) = (y, m, d) := by
  obtain ⟨hy, hm1, hm2, hd1, hd2⟩ := hv
  obtain ⟨a, c, g, h, hY, hc, hgh, hh⟩ :
      ∃ a c g h, y - 1 = 400 * a + 100 * c + 4 * g + h ∧ c ≤ 3 ∧ 4 * g + h ≤ 99 ∧ h ≤ 3 :=
    ⟨(y-1) / 400, ((y-1) % 400) / 100, (((y-1) % 400) % 100) / 4, (((y-1) % 400) % 100) % 4,
      by omega, by omega, by omega, by omega⟩
  have hdby : daysBeforeYear y = 146097 * a + 36524 * c + 1461 * g + 365 * h := by
    simp only [daysBeforeYear]; omega
  have hleap : isLeap y = true ↔ (h = 3 ∧ (g ≠ 24 ∨ c = 3)) := by
    rw [isLeap_iff]; omega
  have hmlt : m < 13 := by omega
  simp only [daysInMonth] at hd2
  have hdlt : d < 32 := by
    have := daysInMonthB_le (isLeap y) m hmlt
    omega
  have hkb := dayIdx_bound (isLeap y) m hmlt d hdlt ⟨hm1, hd1, hd2⟩
  set k := daysBeforeMonthB (isLeap y) m + d - 1 with hkdef
  have hN : ymd2ord y m d = 146097 * a + 36524 * c + 1461 * g + 365 * h + k + 1 := by
    simp only [ymd2ord, daysBeforeMonth, hdby]
    omega
  rw [hN]
  simp only [ord2ymd, Nat.add_sub_cancel]
  by_cases hk365 : k = 365
  · -- k = 365 is the index of December 31 in a leap year
    have hLt : isLeap y = true := by
      cases hLb : isLeap y
      · rw [hLb] at hkb; simp at hkb; omega
      · rfl
    have hgc := hleap.mp hLt
    obtain ⟨hh3, hor⟩ := hgc
    obtain ⟨hm12, hd31⟩ :=
      dayIdx_365 (isLeap y) m hmlt d hdlt ⟨hm1, hd1, hd2, by omega⟩
    by_cases hg24 : g = 24
    · -- December 31 of a year divisible by 400
      have hc3 : c = 3 := by omega
      have eE : 146097 * a + 36524 * c + 1461 * g + 365 * h + k = 146097 * a + 146096 := by
        omega
      rw [eE]
      have d1 : (146097 * a + 146096) / 146097 = a := by omega
      have r1 : (146097 * a + 146096) % 146097 = 146096 := by omega
      rw [d1, r1]
      norm_num
      omega
    · -- December 31 of a leap year not divisible by 400
      have eE : 146097 * a + 36524 * c + 1461 * g + 365 * h + k
          = 146097 * a + (36524 * c + (1461 * g + 1460)) := by omega
      rw [eE]
      have d1 : (146097 * a + (36524 * c + (1461 * g + 1460))) / 146097 = a := by omega
      have r1 : (146097 * a + (36524 * c + (1461 * g + 1460))) % 146097
          = 36524 * c + (1461 * g + 1460) := by omega
      rw [d1, r1]
      have d2 : (36524 * c + (1461 * g + 1460)) / 36524 = c := by omega
      have r2 : (36524 * c + (1461 * g + 1460)) % 36524 = 1461 * g + 1460 := by omega
      rw [d2, r2]
      have d3 : (1461 * g + 1460) / 1461 = g := by omega
      have r3 : (1461 * g + 1460) % 1461 = 1460 := by omega
      rw [d3, r3]
      rw [if_pos (Or.inl (by norm_num : (1460:Nat) / 365 = 4))]
      simp only [Prod.mk.injEq]
      omega
  · -- an ordinary day index, k ≤ 364
    have hk364 : k ≤ 364 := by
      cases hLb : isLeap y <;> rw [hLb] at hkb <;> simp at hkb <;> omega
    have eE : 146097 * a + 36524 * c + 1461 * g + 365 * h + k
        = 146097 * a + (36524 * c + (1461 * g + (365 * h + k))) := by omega
    rw [eE]
    have d1 : (146097 * a + (36524 * c + (1461 * g + (365 * h + k)))) / 146097 = a := by omega
    have r1 : (146097 * a + (36524 * c + (1461 * g + (365 * h + k)))) % 146097
        = 36524 * c + (1461 * g + (365 * h + k)) := by omega
    rw [d1, r1]
    have d2 : (36524 * c + (1461 * g + (365 * h + k))) / 36524 = c := by omega
    have r2 : (36524 * c + (1461 * g + (365 * h + k))) % 36524
        = 1461 * g + (365 * h + k) := by omega
    rw [d2, r2]
    have d3 : (1461 * g + (365 * h + k)) / 1461 = g := by omega
    have r3 : (1461 * g + (365 * h + k)) % 1461 = 365 * h + k := by omega
    rw [d3, r3]
    have d4 : (365 * h + k) / 365 = h := by omega
    have r4 : (365 * h + k) % 365 = k := by omega
    rw [d4, r4]
    rw [if_neg (by omega : ¬(h = 4 ∨ c = 4))]
    have hflag : (h == 3 && (g != 24 || c == 3)) = isLeap y := by
      have hiff : ((h == 3 && (g != 24 || c == 3)) = true) ↔ (h = 3 ∧ (g ≠ 24 ∨ c = 3)) := by
        simp
      exact Bool.eq_iff_iff.mpr (hiff.trans hleap.symm)
    rw [hflag, hkdef]
    rw [monthPart_correct (isLeap y) m hmlt d hdlt ⟨hm1, hd1, hd2⟩]
    simp only [Prod.mk.injEq, and_true]
    omega

theorem ord2ymd_parts (n : Nat) (hn : 1 ≤ n) :
    ∃ y m d, ord2ymd n = (y, m, d) ∧ ValidYMD y m d ∧ ymd2ord y m d = n := by
  obtain ⟨y, m, d, hv, he⟩ := ymd2ord_surj n hn
  exact ⟨y, m, d, by rw [← he, ord2ymd_ymd2ord y m d hv], hv, he⟩

theorem ord2ymd_succ (n : Nat) (hn : 1 ≤ n) :
    ord2ymd (n + 1) = nextDay (ord2ymd n) := by
  obtain ⟨y, m, d, hE, hv, he⟩ := ord2ymd_parts n hn
  obtain ⟨hstep, hv'⟩ := ymd2ord_nextDay y m d hv
  rw [hE]
  rcases hND : nextDay (y, m, d) with ⟨y2, m2, d2⟩
  rw [hND] at hstep hv'
  have h3 := ord2ymd_ymd2ord y2 m2 d2 hv'
  rw [show ymd2ord y2 m2 d2 = n + 1 from by rw [← he]; exact hstep] at h3
  exact h3

theorem monthOf_run (n : Nat) (hn : 1 ≤ n) (h1 : domOf n = 1) :
    ∀ k, k ≤ 27 → monthOf (n + k) = monthOf n ∧ domOf (n + k) = 1 + k := by
  intro k
  induction k with
  | zero => intro _; constructor <;> simp [h1]
  | succ j ih =>
    intro hj
    obtain ⟨hm, hd⟩ := ih (by omega)
    obtain ⟨y2, m2, d2, hE, hv, he⟩ := ord2ymd_parts (n + j) (by omega)
    obtain ⟨hy2, hm21, hm22, hd21, hd22⟩ := hv
    simp only [monthOf, domOf, hE] at hm hd
    have hge := daysInMonthB_ge (isLeap y2) m2 (by omega) hm21
    have hlt : d2 < daysInMonth y2 m2 := by
      simp only [daysInMonth] at hd22 ⊢
      omega
    have hnd : nextDay (y2, m2, d2) = (y2, m2, d2 + 1) := by simp [nextDay, hlt]
    have hs := ord2ymd_succ (n + j) (by omega)
    rw [hE, hnd] at hs
    have hidx : n + (j + 1) = n + j + 1 := by omega
    rw [hidx]
    simp only [monthOf, domOf, hs]
    exact ⟨hm, by omega⟩

theorem dom_of_month_change (n : Nat) (hn : 1 ≤ n) (h : monthOf (n + 1) ≠ monthOf n) :
    domOf (n + 1) = 1 := by
  obtain ⟨y2, m2, d2, hE, hv, he⟩ := ord2ymd_parts n hn
  have hs := ord2ymd_succ n hn
  rw [hE] at hs
  simp only [monthOf, domOf, hE, hs] at h ⊢
  by_cases hlt : d2 < daysInMonth y2 m2
  · rw [show nextDay (y2, m2, d2) = (y2, m2, d2 + 1) from by simp [nextDay, hlt]] at h
    simp at h
  · by_cases hm12 : m2 < 12
    · rw [show nextDay (y2, m2, d2) = (y2, m2 + 1, 1) from by simp [nextDay, hlt, hm12]]
    · rw [show nextDay (y2, m2, d2) = (y2 + 1, 1, 1) from by simp [nextDay, hlt, hm12]]

theorem month_two_block (S : Nat) (hS : 1 ≤ S) :
    ∃ j, j ≤ 7 ∧ (∀ i, i < j → monthOf (S + i) = monthOf S) ∧
      (∀ i, j ≤ i → i < 7 → monthOf (S + i) = monthOf (S + 6)) := by
  by_cases hall : ∀ i, i < 7 → monthOf (S + i) = monthOf S
  · exact ⟨7, by omega, fun i hi => hall i hi, fun i h7 hi => absurd hi (by omega)⟩
  · push_neg at hall
    have hex : ∃ i, i < 7 ∧ monthOf (S + i) ≠ monthOf S := by
      obtain ⟨i0, h1, h2⟩ := hall
      exact ⟨i0, h1, h2⟩
    have hj := Nat.find_spec hex
    set j := Nat.find hex with hjdef
    obtain ⟨hj7, hjne⟩ := hj
    have hjpos : 1 ≤ j := by
      rcases Nat.eq_zero_or_pos j with h0 | h1
      · rw [h0] at hjne
        simp at hjne
      · exact h1
    have hmin : ∀ i, i < j → monthOf (S + i) = monthOf S := by
      intro i hi
      have hni := Nat.find_min hex hi
      push_neg at hni
      exact hni (by omega)
    have hprev : monthOf (S + (j - 1)) = monthOf S := hmin (j - 1) (by omega)
    have hch : monthOf (S + (j - 1) + 1) ≠ monthOf (S + (j - 1)) := by
      have hidx : S + (j - 1) + 1 = S + j := by omega
      rw [hidx, hprev]
      exact hjne
    have hdomj : domOf (S + j) = 1 := by
      have hidx : S + (j - 1) + 1 = S + j := by omega
      rw [← hidx]
      exact dom_of_month_change (S + (j - 1)) (by omega) hch
    refine ⟨j, by omega, hmin, ?_⟩
    intro i hji hi7
    have hrun := monthOf_run (S + j) (by omega) hdomj
    have h6 : monthOf (S + 6) = monthOf (S + j) := by
      have h66 := (hrun (6 - j) (by omega)).1
      rw [show S + j + (6 - j) = S + 6 from by omega] at h66
      exact h66
    have hi : monthOf (S + i) = monthOf (S + j) := by
      have hii := (hrun (i - j) (by omega)).1
      rw [show S + j + (i - j) = S + i from by omega] at hii
      exact hii
    rw [hi, h6]

theorem optionList_nil (f : Nat → Option Nat) : optionList f [] = some [] := rfl

theorem optionList_cons (f : Nat → Option Nat) (d : Nat) (ds : List Nat) :
    optionList f (d :: ds)
      = (f d).bind (fun x => (optionList f ds).map (fun xs => x :: xs)) := by
  cases hf : f d <;> cases hrest : optionList f ds <;> simp [optionList, hf, hrest]

theorem fromisocalendar_some {year : Nat} {week : Int} {day o : Nat}
    (h : fromisocalendar year week day = some o) :
    1 ≤ year ∧ year ≤ 9999 ∧ 0 < week ∧
      (week < 53 ∨ (week = 53 ∧ longYear year = true)) ∧ 0 < day ∧ day < 8 ∧
      o = isoOrdinal year week.toNat day ∧ (ord2ymd o).1 ≤ 9999 := by
  simp only [fromisocalendar] at h
  split at h
  · simp at h
  · split at h
    · simp at h
    · split at h
      · simp at h
      · split at h
        · simp at h
        · rename_i hyr hwk hdy hres
          push_neg at hyr
          rw [Decidable.not_not] at hwk hdy
          simp only [Option.some.injEq] at h
          push_neg at hres
          rw [← h]
          exact ⟨by omega, by omega, hwk.1, hwk.2, hdy.1, hdy.2, rfl, hres⟩

theorem isoweek1monday_ge_one (year : Nat) (hy : 1 ≤ year) : 1 ≤ isoweek1monday year := by
  by_cases h1 : year = 1
  · subst h1; decide
  · have h2 : (2:Nat) ≤ year := by omega
    have hmono := daysBeforeYear_mono h2
    have hd2 : daysBeforeYear 2 = 365 := by decide
    simp only [isoweek1monday, ymd2ord, daysBeforeMonth, daysBeforeMonthB_one]
    split <;> omega

theorem isoweek1monday_le (year : Nat) :
    isoweek1monday year ≤ daysBeforeYear year + 4 := by
  simp only [isoweek1monday, ymd2ord, daysBeforeMonth, daysBeforeMonthB_one]
  split <;> omega

theorem isoweek1monday_mod7 (year : Nat) (hy : 1 ≤ year) :
    isoweek1monday year % 7 = 1 := by
  by_cases h1 : year = 1
  · subst h1; decide
  · have h2 : (2:Nat) ≤ year := by omega
    have hmono := daysBeforeYear_mono h2
    have hd2 : daysBeforeYear 2 = 365 := by decide
    simp only [isoweek1monday, ymd2ord, daysBeforeMonth, daysBeforeMonthB_one]
    split <;> omega

theorem range'_seven (S : Nat) :
    List.range' S 7 = [S, S+1, S+2, S+3, S+4, S+5, S+6] := rfl

theorem range'_split (S j : Nat) (h : j ≤ 7) :
    List.range' S j ++ List.range' (S + j) (7 - j) = List.range' S 7 := by
  have hap := List.range'_append S j (7 - j) 1
  simp only [Nat.one_mul] at hap
  rw [show 7 - j + j = 7 from by omega] at hap
  exact hap

theorem weekDaysList_shape {year : Nat} {week : Int} {wd : List Nat}
    (h : weekDaysList year week = some wd) :
    1 ≤ year ∧ year ≤ 9999 ∧ 0 < week ∧
      wd = List.range' (isoOrdinal year week.toNat 1) 7 ∧
      1 ≤ isoOrdinal year week.toNat 1 := by
  have hr : List.range' 1 DAYS_IN_A_WEEK = [1, 2, 3, 4, 5, 6, 7] := rfl
  simp only [weekDaysList, hr, optionList_cons, optionList_nil, Option.bind_eq_some,
    Option.map_eq_some'] at h
  obtain ⟨o1, h1, x1, ⟨o2, h2, x2, ⟨o3, h3, x3, ⟨o4, h4, x4, ⟨o5, h5, x5,
    ⟨o6, h6, x6, ⟨o7, h7, x7, hx7, hx6⟩, hx5⟩, hx4⟩, hx3⟩, hx2⟩, hx1⟩, hwd⟩ := h
  obtain ⟨hy1, hy2, hwpos, _, _, _, he1, _⟩ := fromisocalendar_some h1
  obtain ⟨_, _, _, _, _, _, he2, _⟩ := fromisocalendar_some h2
  obtain ⟨_, _, _, _, _, _, he3, _⟩ := fromisocalendar_some h3
  obtain ⟨_, _, _, _, _, _, he4, _⟩ := fromisocalendar_some h4
  obtain ⟨_, _, _, _, _, _, he5, _⟩ := fromisocalendar_some h5
  obtain ⟨_, _, _, _, _, _, he6, _⟩ := fromisocalendar_some h6
  obtain ⟨_, _, _, _, _, _, he7, _⟩ := fromisocalendar_some h7
  have hw1 := isoweek1monday_ge_one year hy1
  simp only [Option.some.injEq] at hx7
  refine ⟨hy1, hy2, hwpos, ?_, ?_⟩
  · rw [← hwd, ← hx1, ← hx2, ← hx3, ← hx4, ← hx5, ← hx6, ← hx7]
    rw [range'_seven]
    simp only [isoOrdinal] at he1 he2 he3 he4 he5 he6 he7 ⊢
    simp only [List.cons.injEq]
    refine ⟨by omega, by omega, by omega, by omega, by omega, by omega, by omega, trivial⟩
  · simp only [isoOrdinal]
    omega

theorem filter_of_all_eq {W : List Nat} {mv : Nat} (hall : ∀ x ∈ W, monthOf x = mv) :
    W.filter (fun day => monthOf day == mv) = W :=
  List.filter_eq_self.mpr (fun a ha => by simp [hall a ha])

theorem filter_of_all_ne {W : List Nat} {m1 m2 : Nat} (hne : m1 ≠ m2)
    (hall : ∀ x ∈ W, monthOf x = m2) :
    W.filter (fun day => monthOf day == m1) = [] :=
  List.filter_eq_nil_iff.mpr (fun a ha => by simp [hall a ha]; omega)

theorem get_list_structure {cfg : Configuration} {year : Nat} {week : Int}
    {groups : List (List Nat)} {wd : List Nat}
    (hok : get_list_of_days cfg year week = Except.ok groups)
    (hwd : weekDaysList year week = some wd) :
    ∃ f l,
      (wd.filter (fun day => cfg.is_workday day)).head? = some f ∧
      (wd.filter (fun day => cfg.is_workday day)).getLast? = some l ∧
      ((monthOf f = monthOf l ∧ groups = [wd.filter (fun day => cfg.is_workday day)] ∧
        ∀ x ∈ wd.filter (fun day => cfg.is_workday day), monthOf x = monthOf f) ∨
       (monthOf f ≠ monthOf l ∧
        ∃ P Q, wd.filter (fun day => cfg.is_workday day) = P ++ Q ∧
          P ≠ [] ∧ Q ≠ [] ∧ groups = [P, Q] ∧
          P = (wd.filter (fun day => cfg.is_workday day)).filter
                (fun day => monthOf day == monthOf f) ∧
          Q = (wd.filter (fun day => cfg.is_workday day)).filter
                (fun day => monthOf day == monthOf l) ∧
          (∀ x ∈ P, monthOf x = monthOf f) ∧ (∀ x ∈ Q, monthOf x = monthOf l))) := by
  obtain ⟨hy1, hy2, hwpos, hwdeq, hS1⟩ := weekDaysList_shape hwd
  simp only [get_list_of_days, hwd] at hok
  set S := isoOrdinal year week.toNat 1 with hSdef
  set p := fun day => cfg.is_workday day with hpdef
  obtain ⟨j, hj7, hfirst, hsecond⟩ := month_two_block S hS1
  have hsplit := range'_split S j hj7
  have hmemP : ∀ x ∈ List.range' S j, monthOf x = monthOf S := by
    intro x hx
    rw [List.mem_range'_1] at hx
    have hh := hfirst (x - S) (by omega)
    rw [show S + (x - S) = x from by omega] at hh
    exact hh
  have hmemQ : ∀ x ∈ List.range' (S + j) (7 - j), monthOf x = monthOf (S + 6) := by
    intro x hx
    rw [List.mem_range'_1] at hx
    have hh := hsecond (x - S) (by omega) (by omega)
    rw [show S + (x - S) = x from by omega] at hh
    exact hh
  have hWsplit : wd.filter p
      = (List.range' S j).filter p ++ (List.range' (S + j) (7 - j)).filter p := by
    rw [hwdeq, ← hsplit, List.filter_append]
  set P1 := (List.range' S j).filter p with hP1def
  set Q1 := (List.range' (S + j) (7 - j)).filter p with hQ1def
  have hmemP1 : ∀ x ∈ P1, monthOf x = monthOf S := fun x hx =>
    hmemP x (List.mem_of_mem_filter hx)
  have hmemQ1 : ∀ x ∈ Q1, monthOf x = monthOf (S + 6) := fun x hx =>
    hmemQ x (List.mem_of_mem_filter hx)
  cases hfil : wd.filter p with
  | nil => rw [hfil] at hok; simp at hok
  | cons first rest =>
    simp only [hfil] at hok
    rw [hfil] at hWsplit
    have hfmem : first ∈ wd.filter p := by rw [hfil]; exact List.mem_cons_self _ _
    have hlast : (wd.filter p).getLast? = some (rest.getLastD first) := by
      rw [hfil, List.getLast?_cons, List.getLastD_eq_getLast?]
    have hlmem : rest.getLastD first ∈ wd.filter p :=
      List.mem_of_mem_getLast? (show _ ∈ (wd.filter p).getLast? from by rw [hlast]; rfl)
    have hcover : ∀ x ∈ wd.filter p, monthOf x = monthOf S ∨ monthOf x = monthOf (S + 6) := by
    -- note: hWsplit was rewritten; recover the coverage from it
      intro x hx
      rw [hfil] at hx
      rw [hWsplit] at hx
      rcases List.mem_append.mp hx with hxx | hxx
      · exact Or.inl (hmemP1 x hxx)
      · exact Or.inr (hmemQ1 x hxx)
    refine ⟨first, rest.getLastD first, rfl,
      by rw [List.getLast?_cons, List.getLastD_eq_getLast?], ?_⟩
    by_cases hmeq : monthOf first = monthOf (rest.getLastD first)
    · -- the two ends share a month: the source returns a single group
      rw [if_neg (not_not_intro hmeq)] at hok
      simp only [Except.ok.injEq] at hok
      refine Or.inl ⟨hmeq, hok.symm, ?_⟩
      by_cases hP1 : P1 = []
      · have hWQ : first :: rest = Q1 := by rw [hWsplit, hP1, List.nil_append]
        have hf6 : monthOf first = monthOf (S + 6) :=
          hmemQ1 first (by rw [← hWQ]; exact List.mem_cons_self _ _)
        intro x hx
        rw [hmemQ1 x (by rw [← hWQ]; exact hx), hf6]
      · by_cases hQ1 : Q1 = []
        · have hWP : first :: rest = P1 := by rw [hWsplit, hQ1, List.append_nil]
          have hfS : monthOf first = monthOf S :=
            hmemP1 first (by rw [← hWP]; exact List.mem_cons_self _ _)
          intro x hx
          rw [hmemP1 x (by rw [← hWP]; exact hx), hfS]
        · have hfS : monthOf first = monthOf S := by
            have hh : (first :: rest).head? = some first := rfl
            rw [hWsplit, List.head?_append_of_ne_nil _ hP1] at hh
            exact hmemP1 first (List.mem_of_mem_head? (show _ ∈ P1.head? from by rw [hh]; rfl))
          have hl6 : monthOf (rest.getLastD first) = monthOf (S + 6) := by
            have hh : (first :: rest).getLast? = some (rest.getLastD first) := by
              rw [List.getLast?_cons, List.getLastD_eq_getLast?]
            rw [hWsplit, List.getLast?_append_of_ne_nil _ hQ1] at hh
            exact hmemQ1 _ (List.mem_of_mem_getLast? (show _ ∈ Q1.getLast? from by rw [hh]; rfl))
          intro x hx
          rcases hcover x (by rw [hfil]; exact hx) with hxm | hxm
          · rw [hxm, ← hfS]
          · rw [hxm, ← hl6, ← hmeq]
    · -- the two ends are in different months: the source splits into two groups
      rw [if_pos hmeq] at hok
      simp only [Except.ok.injEq] at hok
      have hP1 : P1 ≠ [] := by
        intro hP1
        have hWQ : first :: rest = Q1 := by rw [hWsplit, hP1, List.nil_append]
        have hf6 := hmemQ1 first (by rw [← hWQ]; exact List.mem_cons_self _ _)
        have hl6 := hmemQ1 (rest.getLastD first) (by rw [← hWQ]; rw [hfil] at hlmem; exact hlmem)
        exact hmeq (by rw [hf6, hl6])
      have hQ1 : Q1 ≠ [] := by
        intro hQ1
        have hWP : first :: rest = P1 := by rw [hWsplit, hQ1, List.append_nil]
        have hfS := hmemP1 first (by rw [← hWP]; exact List.mem_cons_self _ _)
        have hlS := hmemP1 (rest.getLastD first) (by rw [← hWP]; rw [hfil] at hlmem; exact hlmem)
        exact hmeq (by rw [hfS, hlS])
      have hfS : monthOf first = monthOf S := by
        have hh : (first :: rest).head? = some first := rfl
        rw [hWsplit, List.head?_append_of_ne_nil _ hP1] at hh
        exact hmemP1 first (List.mem_of_mem_head? (show _ ∈ P1.head? from by rw [hh]; rfl))
      have hl6 : monthOf (rest.getLastD first) = monthOf (S + 6) := by
        have hh : (first :: rest).getLast? = some (rest.getLastD first) := by
          rw [List.getLast?_cons, List.getLastD_eq_getLast?]
        rw [hWsplit, List.getLast?_append_of_ne_nil _ hQ1] at hh
        exact hmemQ1 _ (List.mem_of_mem_getLast? (show _ ∈ Q1.getLast? from by rw [hh]; rfl))
      have hSne : monthOf S ≠ monthOf (S + 6) := by
        intro hc
        exact hmeq (by rw [hfS, hl6, hc])
      have hPfil : (first :: rest).filter (fun day => monthOf day == monthOf first) = P1 := by
        rw [hWsplit, List.filter_append, hfS]
        rw [filter_of_all_eq hmemP1, filter_of_all_ne hSne hmemQ1, List.append_nil]
      have hQfil : (first :: rest).filter
          (fun day => monthOf day == monthOf (rest.getLastD first)) = Q1 := by
        rw [hWsplit, List.filter_append, hl6]
        rw [filter_of_all_eq hmemQ1, filter_of_all_ne (Ne.symm hSne) hmemP1, List.nil_append]
      refine Or.inr ⟨hmeq, P1, Q1, hWsplit, hP1, hQ1,
        by rw [← hok, hPfil, hQfil], hPfil.symm, hQfil.symm, ?_, ?_⟩
      · intro x hx
        rw [hmemP1 x hx, hfS]
      · intro x hx
        rw [hmemQ1 x hx, hl6]

theorem isocalendar_weekday (n : Nat) (hn : 1 ≤ n) :
    (isocalendarOf n).2.2 = (n - 1) % 7 + 1 := by
  obtain ⟨y, m, d, hE, hv, he⟩ := ord2ymd_parts n hn
  have hy : 1 ≤ y := hv.1
  have hm7 := isoweek1monday_mod7 y hy
  simp only [isocalendarOf, hE]
  split
  · rename_i hneg
    have hy2 : 2 ≤ y := by
      by_contra hc
      have hy1 : y = 1 := by omega
      rw [hy1] at hneg
      have hone : isoweek1monday 1 = 1 := by decide
      rw [hone] at hneg
      omega
    have hm7' := isoweek1monday_mod7 (y - 1) (by omega)
    dsimp only
    omega
  · split
    · dsimp only
      omega
    · dsimp only
      omega

/-- C4: whenever the week's 7 dates resolve, `week_days` is exactly the 7
consecutive date ordinals starting at the Monday computed from the current ISO
year's week-1 Monday, and their ISO weekday numbers are 1..7 (Monday through
Sunday) in order. -/
theorem c4_week_dates {year : Nat} {week : Int} {wd : List Nat}
    (hwd : weekDaysList year week = some wd) :
    ∃ S, 1 ≤ S ∧ S = isoOrdinal year week.toNat 1 ∧
      wd = [S, S + 1, S + 2, S + 3, S + 4, S + 5, S + 6] ∧
      ∀ i, i < 7 → (isocalendarOf (S + i)).2.2 = i + 1 := by
  obtain ⟨hy1, hy2, hwpos, hwdeq, hS1⟩ := weekDaysList_shape hwd
  refine ⟨isoOrdinal year week.toNat 1, hS1, rfl, by rw [hwdeq, range'_seven], ?_⟩
  intro i hi
  rw [isocalendar_weekday _ (by omega)]
  have hw1 := isoweek1monday_mod7 year hy1
  simp only [isoOrdinal] at hS1 ⊢
  omega

/-- C4 witness: the 7 dates of ISO week 10 of 2026 are consecutive with
weekdays 1..7. -/
theorem c4_witness :
    ∃ S, 1 ≤ S ∧ S = isoOrdinal 2026 (Int.toNat 10) 1 ∧
      ([739677, 739678, 739679, 739680, 739681, 739682, 739683] : List Nat)
        = [S, S + 1, S + 2, S + 3, S + 4, S + 5, S + 6] ∧
      ∀ i, i < 7 → (isocalendarOf (S + i)).2.2 = i + 1 :=
  @c4_week_dates 2026 10 [739677, 739678, 739679, 739680, 739681, 739682, 739683] rfl

/-- C1: for every week whose 7 dates resolve and whose filtered list is
non-empty (so `get_list_of_days` succeeds), the concatenation of the returned
groups is exactly the in-order filter of the week's 7 dates by `is_workday`:
only configured work weekdays, date order preserved, no duplicates or
omissions. -/
theorem c1_working_days_concat {cfg : Configuration} {year : Nat} {week : Int}
    {groups : List (List Nat)} {wd : List Nat}
    (hok : get_list_of_days cfg year week = Except.ok groups)
    (hwd : weekDaysList year week = some wd) :
    groups.flatten = wd.filter (fun day => cfg.is_workday day) := by
  obtain ⟨f, l, hh, hl, hcase⟩ := get_list_structure hok hwd
  rcases hcase with ⟨hm, hgr, hall⟩ | ⟨hne, P, Q, hPQ, hP, hQ, hgr, hPe, hQe, hPm, hQm⟩
  · rw [hgr]
    simp [List.flatten]
  · rw [hgr]
    simp [List.flatten]
    exact hPQ.symm

/-- C1 witness: week 18 of 2026 with the default configuration. -/
theorem c1_witness :
    ([[739733, 739734, 739735, 739736], [739737]] : List (List Nat)).flatten
      = ([739733, 739734, 739735, 739736, 739737, 739738, 739739] : List Nat).filter
          (fun day => cfg0.is_workday day) :=
  @c1_working_days_concat cfg0 2026 18 [[739733, 739734, 739735, 739736], [739737]]
    [739733, 739734, 739735, 739736, 739737, 739738, 739739] rfl rfl

/-- C2: on success the split is by month: if the filtered days all share one
month the result is the single group containing them all; if the first and
last filtered days lie in different months (equivalently, two months occur),
the result is exactly two groups, the first-month days then the last-month
days, each group a non-empty contiguous segment in date order. -/
theorem c2_month_split {cfg : Configuration} {year : Nat} {week : Int}
    {groups : List (List Nat)} {wd : List Nat}
    (hok : get_list_of_days cfg year week = Except.ok groups)
    (hwd : weekDaysList year week = some wd) :
    ∃ f l,
      (wd.filter (fun day => cfg.is_workday day)).head? = some f ∧
      (wd.filter (fun day => cfg.is_workday day)).getLast? = some l ∧
      ((monthOf f = monthOf l ∧
        (∀ x ∈ wd.filter (fun day => cfg.is_workday day), monthOf x = monthOf f) ∧
        groups = [wd.filter (fun day => cfg.is_workday day)]) ∨
       (monthOf f ≠ monthOf l ∧
        (∃ x ∈ wd.filter (fun day => cfg.is_workday day), monthOf x ≠ monthOf f) ∧
        ∃ P Q, groups = [P, Q] ∧ wd.filter (fun day => cfg.is_workday day) = P ++ Q ∧
          P ≠ [] ∧ Q ≠ [] ∧
          (∀ x ∈ P, monthOf x = monthOf f) ∧ (∀ x ∈ Q, monthOf x = monthOf l))) := by
  obtain ⟨f, l, hh, hl, hcase⟩ := get_list_structure hok hwd
  refine ⟨f, l, hh, hl, ?_⟩
  rcases hcase with ⟨hm, hgr, hall⟩ | ⟨hne, P, Q, hPQ, hP, hQ, hgr, hPe, hQe, hPm, hQm⟩
  · exact Or.inl ⟨hm, hall, hgr⟩
  · refine Or.inr ⟨hne, ⟨l, ?_, fun hc => hne hc.symm⟩, P, Q, hgr, hPQ, hP, hQ, hPm, hQm⟩
    exact List.mem_of_mem_getLast? (show _ ∈ _ from by rw [hl]; rfl)

/-- C2 witness: week 18 of 2026 with the default configuration spans April and
May. -/
theorem c2_witness :
    ∃ f l,
      (([739733, 739734, 739735, 739736, 739737, 739738, 739739] : List Nat).filter
          (fun day => cfg0.is_workday day)).head? = some f ∧
      (([739733, 739734, 739735, 739736, 739737, 739738, 739739] : List Nat).filter
          (fun day => cfg0.is_workday day)).getLast? = some l ∧
      ((monthOf f = monthOf l ∧
        (∀ x ∈ ([739733, 739734, 739735, 739736, 739737, 739738, 739739] : List Nat).filter
            (fun day => cfg0.is_workday day), monthOf x = monthOf f) ∧
        ([[739733, 739734, 739735, 739736], [739737]] : List (List Nat))
          = [([739733, 739734, 739735, 739736, 739737, 739738, 739739] : List Nat).filter
              (fun day => cfg0.is_workday day)]) ∨
       (monthOf f ≠ monthOf l ∧
        (∃ x ∈ ([739733, 739734, 739735, 739736, 739737, 739738, 739739] : List Nat).filter
            (fun day => cfg0.is_workday day), monthOf x ≠ monthOf f) ∧
        ∃ P Q, ([[739733, 739734, 739735, 739736], [739737]] : List (List Nat)) = [P, Q] ∧
          ([739733, 739734, 739735, 739736, 739737, 739738, 739739] : List Nat).filter
              (fun day => cfg0.is_workday day) = P ++ Q ∧
          P ≠ [] ∧ Q ≠ [] ∧
          (∀ x ∈ P, monthOf x = monthOf f) ∧ (∀ x ∈ Q, monthOf x = monthOf l))) :=
  @c2_month_split cfg0 2026 18 [[739733, 739734, 739735, 739736], [739737]]
    [739733, 739734, 739735, 739736, 739737, 739738, 739739] rfl rfl

/-- C3 counterexample: with the current ISO year 2026, week numbers outside
the valid ISO range — 0, 60, and a negative week, all reachable from the CLI
offset — make `date.fromisocalendar` raise `ValueError` (modelled `none`)
instead of resolving into the adjacent year, and `week_dates` fails with them. -/
theorem c3_counterexample :
    get_day_from_week 2026 0 1 = none ∧ get_day_from_week 2026 60 1 = none ∧
      get_day_from_week 2026 (-3) 1 = none ∧ weekDaysList 2026 0 = none :=
  ⟨rfl, rfl, rfl, rfl⟩

/-- C3 amended: `get_day_from_week` raises for week numbers outside the valid
ISO range of the anchor year, and returns a concrete date for every week
1..52 of every year up to 9998; `week_dates` then yields its 7 dates. -/
theorem c3_amended (year : Nat) (week : Int) (day : Nat)
    (hy1 : 1 ≤ year) (hy2 : year ≤ 9998) (hw1 : 1 ≤ week) (hw2 : week ≤ 52)
    (hd1 : 1 ≤ day) (hd2 : day ≤ 7) :
    (get_day_from_week year week day).isSome = true ∧
      (weekDaysList year week).isSome = true := by
  have hsucc : ∀ dd, 1 ≤ dd → dd ≤ 7 →
      get_day_from_week year week dd = some (isoOrdinal year week.toNat dd) := by
    intro dd hdd1 hdd2
    have hb1 := isoweek1monday_le year
    have hord : isoOrdinal year week.toNat dd ≤ daysBeforeYear year + 367 := by
      simp only [isoOrdinal]
      have hwn : week.toNat ≤ 52 := by omega
      omega
    have hpos : 1 ≤ isoOrdinal year week.toNat dd := by
      have := isoweek1monday_ge_one year hy1
      simp only [isoOrdinal]
      omega
    have hyearbound : (ord2ymd (isoOrdinal year week.toNat dd)).1 ≤ 9999 := by
      obtain ⟨yy, mm, dd2, hEE, hvv, hee⟩ := ord2ymd_parts (isoOrdinal year week.toNat dd) hpos
      rw [hEE]
      by_contra hgt
      push_neg at hgt
      have hmono : daysBeforeYear 10000 ≤ daysBeforeYear yy := daysBeforeYear_mono (by omega)
      have hmono2 : daysBeforeYear year ≤ daysBeforeYear 9998 := daysBeforeYear_mono hy2
      have h1e4 : daysBeforeYear 10000 = 3652059 := by decide
      have h9998 : daysBeforeYear 9998 = 3651329 := by decide
      simp only [ymd2ord] at hee
      omega
    simp only [get_day_from_week, fromisocalendar]
    rw [if_neg (show ¬(year < 1 ∨ 9999 < year) from by omega)]
    rw [if_neg (not_not_intro ⟨by omega, Or.inl (by omega)⟩)]
    rw [if_neg (not_not_intro ⟨by omega, by omega⟩)]
    rw [if_neg (show ¬(9999 < (ord2ymd (isoOrdinal year week.toNat dd)).1) from by omega)]
  constructor
  · rw [hsucc day hd1 hd2]
    rfl
  · have hr : List.range' 1 DAYS_IN_A_WEEK = [1, 2, 3, 4, 5, 6, 7] := rfl
    simp only [weekDaysList, hr, optionList, hsucc 1 (by omega) (by omega),
      hsucc 2 (by omega) (by omega), hsucc 3 (by omega) (by omega),
      hsucc 4 (by omega) (by omega), hsucc 5 (by omega) (by omega),
      hsucc 6 (by omega) (by omega), hsucc 7 (by omega) (by omega)]
    rfl

/-- C3 witness: week 10 of 2026 resolves, as do its 7 week dates. -/
theorem c3_witness :
    (get_day_from_week 2026 10 1).isSome = true ∧
      (weekDaysList 2026 10).isSome = true :=
  c3_amended 2026 10 1 (by omega) (by omega) (by omega) (by omega) (by omega) (by omega)

/-- C5: `format_day` produces `"<3-letter weekday abbrev>-<DD:MM>.: <description>"`
exactly as the spec-shaped `format_day_spec` describes, and the holiday label
is used whenever `is_holiday` is true, regardless of the other predicates. -/
theorem c5_format_day (cfg : Configuration) (day : Nat) :
    format_day cfg day = format_day_spec cfg day ∧
      (cfg.is_holiday day = true →
        format_day cfg day = weekdayAbbrevOf day ++ "-" ++ pad2 (domOf day) ++ ":" ++
          pad2 (monthOf day) ++ ".: " ++ cfg.holiday_spelling) := by
  constructor
  · simp only [format_day, format_day_spec, String.append_assoc]
  · intro hh
    simp only [format_day, hh, if_true, String.append_assoc]

/-- C5 witness: a holiday Monday produces the holiday line. -/
theorem c5_witness :
    format_day cfgH 739733 = weekdayAbbrevOf 739733 ++ "-" ++ pad2 (domOf 739733) ++ ":" ++
      pad2 (monthOf 739733) ++ ".: " ++ cfgH.holiday_spelling :=
  (c5_format_day cfgH 739733).2 rfl

/-- C7 counterexample: with the file present but malformed (`json.loads`
fails), `Configuration.__init__` does not reach the handled diagnostic-and-exit
path: the `JSONDecodeError` propagates uncaught, because `json.loads` runs
outside the `try` block that only catches `FileNotFoundError`. -/
theorem c7_counterexample :
    configInit (some "not json") (fun _ => none) (fun _ _ => none)
        = InitOutcome.raised "JSONDecodeError" ∧
      (configInit (some "not json") (fun _ => none) (fun _ _ => none)).isExited = false :=
  ⟨rfl, rfl⟩

/-- C7 amended: a missing configuration file is caught and handled — a
diagnostic is printed and the process exits via `sys.exit(1)` — while
malformed JSON contents raise an uncaught `JSONDecodeError` (the process dies
via the interpreter's default handler, not the handled diagnostic path). -/
theorem c7_amended (jsonLoads : String → Option ConfigDict)
    (importCountry : String → String → Option (Nat → Bool)) (s : String)
    (hbad : jsonLoads s = none) :
    configInit none jsonLoads importCountry
        = InitOutcome.exited "Failed to load configuration file" ∧
      configInit (some s) jsonLoads importCountry
        = InitOutcome.raised "JSONDecodeError" := by
  constructor
  · rfl
  · simp only [configInit, hbad]

/-- C7 witness: a concrete missing file and a concrete malformed file. -/
theorem c7_witness :
    configInit none (fun _ => none) (fun _ _ => none)
        = InitOutcome.exited "Failed to load configuration file" ∧
      configInit (some "x") (fun _ => none) (fun _ _ => none)
        = InitOutcome.raised "JSONDecodeError" :=
  c7_amended (fun _ => none) (fun _ _ => none) "x" rfl

/-- C8: when the work-day filter leaves no dates, `get_list_of_days` fails
with `IndexError` at `work_days[0]` instead of returning an empty split. -/
theorem c8_empty_week {cfg : Configuration} {year : Nat} {week : Int} {wd : List Nat}
    (hwd : weekDaysList year week = some wd)
    (hempty : wd.filter (fun day => cfg.is_workday day) = []) :
    get_list_of_days cfg year week = Except.error PyErr.indexError := by
  simp only [get_list_of_days, hwd, hempty]

/-- C8 witness: an empty `work_days` configuration on week 1 of 2026. -/
theorem c8_witness :
    get_list_of_days cfgE 2026 1 = Except.error PyErr.indexError :=
  @c8_empty_week cfgE 2026 1 [739614, 739615, 739616, 739617, 739618, 739619, 739620]
    rfl rfl

/-- C10: the vacation branch of `format_day` is unreachable because
`is_vacation` constantly returns `False`: every produced line is either the
holiday line or the `Start/End` line, and the configured `vacation` label
influences neither `format_day` nor any report or printed output. -/
theorem c10_vacation_unreachable (cfg : Configuration) (v : String) (year : Nat)
    (week : Int) (day : Nat) :
    format_day (setVacation cfg v) day = format_day cfg day ∧
      get_reports (setVacation cfg v) year week = get_reports cfg year week ∧
      print_report (setVacation cfg v) year week = print_report cfg year week ∧
      (format_day cfg day = weekdayAbbrevOf day ++ "-" ++ pad2 (domOf day) ++ ":" ++
          pad2 (monthOf day) ++ ".: " ++ cfg.holiday_spelling ∨
       format_day cfg day = weekdayAbbrevOf day ++ "-" ++ pad2 (domOf day) ++ ":" ++
          pad2 (monthOf day) ++ ".: " ++
          ("Start: " ++ cfg.start_hour ++ "; End: " ++ cfg.end_hour)) := by
  refine ⟨rfl, rfl, rfl, ?_⟩
  cases hh : cfg.is_holiday day
  · right
    simp only [format_day, hh, Bool.false_eq_true, if_false, String.append_assoc]
    rfl
  · left
    simp only [format_day, hh, if_true, String.append_assoc]

/-- C6: on success, `get_reports` maps each group to the title
`"Working hours <DD>-<DD> Of <FullMonthName>"` — built from the group's first
and last day-of-month and its first day's month name — followed by
`format_day` of each day of the group in order; every group is non-empty, so
its first and last days are well defined. -/
theorem c6_reports {cfg : Configuration} {year : Nat} {week : Int}
    {groups : List (List Nat)}
    (hok : get_list_of_days cfg year week = Except.ok groups) :
    get_reports cfg year week = Except.ok (groups.map (fun g =>
        ("Working hours " ++ pad2 (domOf (g.headD 0)) ++ "-" ++ pad2 (domOf (g.getLastD 0))
          ++ " Of " ++ MONTH_NAMES.getD (monthOf (g.headD 0)) "")
        :: g.map (fun day => format_day cfg day))) ∧
      ∀ g ∈ groups, g ≠ [] := by
  constructor
  · simp only [get_reports, hok]
    rfl
  · intro g hg
    cases hwd : weekDaysList year week with
    | none => simp [get_list_of_days, hwd] at hok
    | some wd =>
      obtain ⟨f, l, hh, hl, hcase⟩ := get_list_structure hok hwd
      rcases hcase with ⟨_, hgr, _⟩ | ⟨_, P, Q, _, hP, hQ, hgr, _, _, _, _⟩
      · rw [hgr] at hg
        simp only [List.mem_singleton] at hg
        subst hg
        intro hc
        rw [hc] at hh
        simp at hh
      · rw [hgr] at hg
        simp only [List.mem_cons, List.mem_singleton, List.not_mem_nil, or_false] at hg
        rcases hg with hg | hg <;> subst hg
        · exact hP
        · exact hQ

/-- C6 witness: week 18 of 2026 with the default configuration. -/
theorem c6_witness :
    get_reports cfg0 2026 18 = Except.ok
      ((([[739733, 739734, 739735, 739736], [739737]] : List (List Nat))).map (fun g =>
        ("Working hours " ++ pad2 (domOf (g.headD 0)) ++ "-" ++ pad2 (domOf (g.getLastD 0))
          ++ " Of " ++ MONTH_NAMES.getD (monthOf (g.headD 0)) "")
        :: g.map (fun day => format_day cfg0 day))) ∧
      ∀ g ∈ ([[739733, 739734, 739735, 739736], [739737]] : List (List Nat)), g ≠ [] :=
  @c6_reports cfg0 2026 18 [[739733, 739734, 739735, 739736], [739737]] rfl

theorem get_reports_subs_ne_nil {cfg : Configuration} {year : Nat} {week : Int}
    {reports : List (List String)}
    (hok : get_reports cfg year week = Except.ok reports) :
    ∀ sub ∈ reports, sub ≠ [] := by
  cases hld : get_list_of_days cfg year week with
  | error e => simp [get_reports, hld] at hok
  | ok days =>
    simp only [get_reports, hld, Except.ok.injEq] at hok
    subst hok
    intro sub hsub
    obtain ⟨g, hgm, hge⟩ := List.mem_map.mp hsub
    rw [← hge]
    simp [group_report]

theorem join_group_lines (sub : List String) (h : sub ≠ []) :
    emitLines sub ++ "\n\n" = intercalateStr "\n" sub ++ "\n\n\n" := by
  induction sub with
  | nil => simp at h
  | cons a l ih =>
    cases l with
    | nil =>
      show (a ++ "\n") ++ "" ++ "\n\n" = a ++ "\n\n\n"
      rw [String.append_empty, String.append_assoc]
      congr 1
    | cons b l2 =>
      have ih2 := ih (by simp)
      have e1 : emitLines (a :: b :: l2) = (a ++ "\n") ++ emitLines (b :: l2) := rfl
      have e2 : intercalateStr "\n" (a :: b :: l2)
          = a ++ "\n" ++ intercalateStr "\n" (b :: l2) := rfl
      rw [e1, e2, String.append_assoc, ih2]
      simp [String.append_assoc]

theorem emitGroups_eq_render (reports : List (List String))
    (hne : ∀ sub ∈ reports, sub ≠ []) :
    emitGroups reports = render_actual reports := by
  induction reports with
  | nil => rfl
  | cons sub subs ih =>
    have h1 : sub ≠ [] := hne sub (by simp)
    show (emitLines sub ++ "\n\n") ++ emitGroups subs
      = (intercalateStr "\n" sub ++ "\n\n\n") ++ render_actual subs
    rw [join_group_lines sub h1, ih (fun s hs => hne s (by simp [hs]))]

set_option maxRecDepth 16384 in
/-- C9 counterexample: on week 18 of 2026 the printed text differs from the
spec's rendering (single blank line between groups, nothing else): the code
emits two blank lines after every group, including the last. -/
theorem c9_counterexample :
    print_report cfg0 2026 18 = Except.ok
      "Working hours 27-30 Of April\nMon-27:04.: Start: 8:00; End: 17:00\nTue-28:04.: Start: 8:00; End: 17:00\nWed-29:04.: Start: 8:00; End: 17:00\nThu-30:04.: Start: 8:00; End: 17:00\n\n\nWorking hours 01-01 Of May\nFri-01:05.: Start: 8:00; End: 17:00\n\n\n" ∧
    Except.map render_spec (get_reports cfg0 2026 18) = Except.ok
      "Working hours 27-30 Of April\nMon-27:04.: Start: 8:00; End: 17:00\nTue-28:04.: Start: 8:00; End: 17:00\nWed-29:04.: Start: 8:00; End: 17:00\nThu-30:04.: Start: 8:00; End: 17:00\n\nWorking hours 01-01 Of May\nFri-01:05.: Start: 8:00; End: 17:00\n" ∧
    ("Working hours 27-30 Of April\nMon-27:04.: Start: 8:00; End: 17:00\nTue-28:04.: Start: 8:00; End: 17:00\nWed-29:04.: Start: 8:00; End: 17:00\nThu-30:04.: Start: 8:00; End: 17:00\n\n\nWorking hours 01-01 Of May\nFri-01:05.: Start: 8:00; End: 17:00\n\n\n"
      : String) ≠
    "Working hours 27-30 Of April\nMon-27:04.: Start: 8:00; End: 17:00\nTue-28:04.: Start: 8:00; End: 17:00\nWed-29:04.: Start: 8:00; End: 17:00\nThu-30:04.: Start: 8:00; End: 17:00\n\nWorking hours 01-01 Of May\nFri-01:05.: Start: 8:00; End: 17:00\n" :=
  ⟨rfl, rfl, by decide⟩

/-- C9 amended: `print_report` writes, for each sub-report in order, its lines
joined by single newlines followed by three consecutive newline characters —
the final line's newline plus the two newlines of `print("\n")`, i.e. two
blank lines — after every group, including the last. -/
theorem c9_amended {cfg : Configuration} {year : Nat} {week : Int}
    {reports : List (List String)}
    (hok : get_reports cfg year week = Except.ok reports) :
    print_report cfg year week = Except.ok (render_actual reports) := by
  simp only [print_report, hok]
  rw [emitGroups_eq_render reports (get_reports_subs_ne_nil hok)]

set_option maxRecDepth 16384 in
/-- C9 witness: week 18 of 2026 with the default configuration. -/
theorem c9_witness :
    print_report cfg0 2026 18 = Except.ok (render_actual
      [["Working hours 27-30 Of April", "Mon-27:04.: Start: 8:00; End: 17:00",
        "Tue-28:04.: Start: 8:00; End: 17:00", "Wed-29:04.: Start: 8:00; End: 17:00",
        "Thu-30:04.: Start: 8:00; End: 17:00"],
       ["Working hours 01-01 Of May", "Fri-01:05.: Start: 8:00; End: 17:00"]]) :=
  @c9_amended cfg0 2026 18
    [["Working hours 27-30 Of April", "Mon-27:04.: Start: 8:00; End: 17:00",
      "Tue-28:04.: Start: 8:00; End: 17:00", "Wed-29:04.: Start: 8:00; End: 17:00",
      "Thu-30:04.: Start: 8:00; End: 17:00"],
     ["Working hours 01-01 Of May", "Fri-01:05.: Start: 8:00; End: 17:00"]] rfl
